import Mathlib

/-!
Verification development for `EMNLPClean/Baseline/gpt2/run_gen.py`.

Text is modelled as `List Char` and token ids as `Nat`. The tokenizer
(codec) and the language model are external collaborators and appear as
function parameters `enc`, `dec` and `generate`. Python string
operations used by the script (`str.strip`, `str.find`, `str.replace`,
slicing with negative indices, `str.split`) are embedded below with
Python semantics. Recursions over text carry an explicit fuel equal to
the text length so that every definition evaluates by kernel reduction;
fuel adequacy is proved where the equations are needed.
-/

set_option autoImplicit false
set_option maxRecDepth 16000

/-! ### Python string primitives -/

/-- Python `s.strip()`: drop whitespace from both ends. -/
def pyStrip (s : List Char) : List Char :=
  ((s.dropWhile Char.isWhitespace).reverse.dropWhile Char.isWhitespace).reverse

/-- Python `pat in s` (substring occurrence test). -/
def occurs (pat : List Char) : List Char → Bool
  | [] => pat.isEmpty
  | c :: rest => pat.isPrefixOf (c :: rest) || occurs pat rest

/-- Index of the first occurrence of `pat` in `s`, if any. -/
def findIdx0 (pat : List Char) : List Char → Option Nat
  | [] => if pat.isEmpty then some 0 else none
  | c :: rest =>
    if pat.isPrefixOf (c :: rest) then some 0 else (findIdx0 pat rest).map (· + 1)

/-- Python `s.find(pat)`: first index of `pat` in `s`, or `-1`. -/
def pyFind (pat s : List Char) : Int :=
  match findIdx0 pat s with
  | some k => (k : Int)
  | none => -1

/-- Python slice `s[a:b]` with optional, possibly negative endpoints. -/
def pySlice (s : List Char) (a b : Option Int) : List Char :=
  let n : Int := s.length
  let norm : Int → Nat := fun i => (min n (if i < 0 then max 0 (i + n) else i)).toNat
  let lo : Nat := match a with | none => 0 | some i => norm i
  let hi : Nat := match b with | none => s.length | some i => norm i
  (s.take hi).drop lo

/-- Fueled worker for Python `s.replace(pat, repl)`: replace every
non-overlapping occurrence of `pat`, scanning left to right. Each step
consumes one unit of fuel and at least one character, so fuel equal to
the text length never runs out. -/
def replaceAllF (pat repl : List Char) : Nat → List Char → List Char
  | _, [] => []
  | 0, s => s
  | fuel + 1, c :: rest =>
    if pat.isPrefixOf (c :: rest) ∧ pat ≠ [] then
      repl ++ replaceAllF pat repl fuel ((c :: rest).drop pat.length)
    else
      c :: replaceAllF pat repl fuel rest

/-- Python `s.replace(pat, repl)`. -/
def replaceAll (pat repl s : List Char) : List Char :=
  replaceAllF pat repl s.length s

/-- Fueled worker for Python `s.split()`. -/
def pySplitWsF : Nat → List Char → List (List Char)
  | _, [] => []
  | 0, _ => []
  | fuel + 1, c :: rest =>
    if c.isWhitespace then pySplitWsF fuel rest
    else (c :: rest.takeWhile (fun x => ¬ x.isWhitespace)) ::
      pySplitWsF fuel (rest.dropWhile (fun x => ¬ x.isWhitespace))

/-- Python `s.split()`: split on whitespace runs, no empty fields. -/
def pySplitWs (s : List Char) : List (List Char) :=
  pySplitWsF s.length s

/-! ### Source constants (run_gen.py lines 48-136) -/

/-- `MAX_LENGTH = int(10000)` (run_gen.py line 48). -/
def MAX_LENGTH : Int := 10000

/-- `PADDING_TEXT` (run_gen.py lines 63-72), the fixed padding passage
for Transformer-XL and XLNet. -/
def PADDING_TEXT : List Char :=
  (" In 1991, the remains of Russian Tsar Nicholas II and his family\n(except for Alexei and Maria) are discovered.\nThe voice of Nicholas\x27s young son, Tsarevich Alexei Nikolaevich, narrates the\nremainder of the story. 1883 Western Siberia,\na young Grigori Rasputin is asked by his father and a group of men to perform magic.\nRasputin has a vision and denounces one of the men as a horse thief. Although his\nfather initially slaps him for making such an accusation, Rasputin watches as the\nman is chased outside and beaten. Twenty years later, Rasputin sees a vision of\nthe Virgin Mary, prompting him to become a priest. Rasputin quickly becomes famous,\nwith people, even a bishop, begging for his blessing. <eod> </s> <eos>").data

/-- Keys of `MODEL_CLASSES` (run_gen.py lines 50-58). -/
def MODEL_CLASSES_keys : List (List Char) :=
  ["gpt2".data, "distilgpt2".data, "ctrl".data, "openai-gpt".data,
   "xlnet".data, "transfo-xl".data, "xlm".data]

/-- `prepare_xlnet_input` (run_gen.py lines 121-123): prepend the
caller-supplied padding text, or `PADDING_TEXT` when it is empty
(Python truthiness of the `padding_text` argument). -/
def prepare_xlnet_input (padding_text prompt_text : List Char) : List Char :=
  (if padding_text ≠ [] then padding_text else PADDING_TEXT) ++ prompt_text

/-- `prepare_transfoxl_input` (run_gen.py lines 126-128). -/
def prepare_transfoxl_input (padding_text prompt_text : List Char) : List Char :=
  (if padding_text ≠ [] then padding_text else PADDING_TEXT) ++ prompt_text

/-! ### The length resolver (`adjust_length_to_model`, run_gen.py lines 139-146) -/

/-- `adjust_length_to_model(length, max_sequence_length)`
(run_gen.py lines 139-146). -/
def adjust_length_to_model (length max_sequence_length : Int) : Int :=
  if length < 0 ∧ max_sequence_length > 0 then max_sequence_length
  else if 0 < max_sequence_length ∧ max_sequence_length < length then max_sequence_length
  else if length < 0 then MAX_LENGTH
  else length

/-- The length-resolution rules as the specification states them, in the
stated order (spec section 4.2). -/
def resolve_length_spec (requested model_capacity : Int) : Int :=
  if requested < 0 ∧ 0 < model_capacity then model_capacity
  else if 0 < model_capacity ∧ model_capacity < requested then model_capacity
  else if requested < 0 ∧ model_capacity ≤ 0 then 10000
  else requested

/-! ### The batch driver `file_gen` and the interactive driver
`prompt_gen` (run_gen.py lines 216-290) -/

/-- `tokenizer.encode(text, return_tensors="pt")` produces a tensor of
shape `(1, n)`, modelled as a one-element list of token-id rows. -/
def encodeTensor (enc : List Char → List Nat) (text : List Char) : List (List Nat) :=
  [enc text]

/-- The tensor built per row by the batch driver (run_gen.py line 229):
`tokenizer.encode(prompt_text + " <c-begin> ".strip(), ...)[:100]`.
Python evaluates `" <c-begin> ".strip()` first, and the `[:100]` slice
applies to the outer (batch) dimension of the `(1, n)` tensor. -/
def file_gen_input_ids (enc : List Char → List Nat) (prompt_text : List Char) :
    List (List Nat) :=
  (encodeTensor enc (prompt_text ++ pyStrip " <c-begin> ".data)).take 100

/-- The batch-driver truncation (run_gen.py line 256):
`text[text.find("<c-begin>") : text.find(stop_token) if stop_token else None]`. -/
def file_gen_trunc (stop_token : Option (List Char)) (text : List Char) : List Char :=
  pySlice text (some (pyFind "<c-begin>".data text))
    (stop_token.map fun st => pyFind st text)

/-- The interactive-driver truncation (run_gen.py line 283):
`text[: text.find(stop_token) if stop_token else None]`. -/
def prompt_gen_trunc (stop_token : Option (List Char)) (text : List Char) : List Char :=
  pySlice text none (stop_token.map fun st => pyFind st text)

/-- The shared post-processing of the interactive driver (run_gen.py
lines 284-285): remove `<pad>` markers, then replace newlines by
spaces. -/
def prompt_postprocess (s : List Char) : List Char :=
  replaceAll ['\n'] [' '] (replaceAll "<pad>".data [] s)

/-- The batch-driver post-processing (run_gen.py lines 257-259): remove
`<pad>` markers, remove `<c-begin>` markers, then replace newlines by
spaces. -/
def file_postprocess (s : List Char) : List Char :=
  replaceAll ['\n'] [' '] (replaceAll "<c-begin>".data [] (replaceAll "<pad>".data [] s))

/-- `" ".join(content.strip().split()[:400])` (run_gen.py line 223). -/
def ref_content (content : List Char) : List Char :=
  List.intercalate [' '] ((pySplitWs (pyStrip content)).take 400)

/-- One output record of the batch driver (spec section 3, BatchRow). -/
structure BatchRow where
  prompt : List Char
  ref_fact : List Char
  ref : List Char
  gen : List Char
  style_label : List Char

/-- The loop body of `file_gen` for one input row (run_gen.py lines
240-262), with the codec (`enc`, `dec`) and `model.generate` as opaque
collaborators. `generate` maps the input tensor to the tensor of output
sequences; `output_sequences[0]` is modelled by `getD 0 []`. The five
fields are stripped exactly where line 262 applies `.strip()`. -/
def file_gen_row (enc : List Char → List Nat) (dec : List Nat → List Char)
    (generate : List (List Nat) → List (List Nat)) (stop_token : Option (List Char))
    (title content : List Char) : BatchRow :=
  let e_p := file_gen_input_ids enc title
  let output_sequences := generate e_p
  let generated_sequence := output_sequences.getD 0 []
  let text0 := dec generated_sequence
  let text1 := file_gen_trunc stop_token text0
  let text2 := file_postprocess text1
  let prompt_text := dec (e_p.getD 0 [])
  { prompt := pyStrip prompt_text
    ref_fact := pyStrip title
    ref := pyStrip (ref_content content)
    gen := pyStrip text2
    style_label := "1".data }

/-- The header line written first by `file_gen` (run_gen.py line 237). -/
def header_line : List Char := "prompt\tref_fact\tref\tgen\tstyle_label\n".data

/-- `"{}\t{}\t{}\t{}\t{}\n".format(...)` (run_gen.py line 262). -/
def format_row (r : BatchRow) : List Char :=
  r.prompt ++ '\t' :: (r.ref_fact ++ '\t' :: (r.ref ++ '\t' :: (r.gen ++ '\t' ::
    (r.style_label ++ ['\n']))))

/-- All `fout.write` payloads of one `file_gen` run over the rows of the
input table (run_gen.py lines 234-263): the header first, then one
formatted record appended per row of the loop. -/
def file_gen_writes (enc : List Char → List Nat) (dec : List Nat → List Char)
    (generate : List (List Nat) → List (List Nat)) (stop_token : Option (List Char))
    (rows : List (List Char × List Char)) : List (List Char) :=
  rows.foldl
    (fun acc row => acc ++ [format_row (file_gen_row enc dec generate stop_token row.1 row.2)])
    [header_line]

/-! ### Startup (`main`, run_gen.py lines 149-234) -/

/-- The externally visible startup effects of `main`: loading the codec
and model (run_gen.py lines 208-209), then, in batch mode, `file_gen`
opening the prompt table and the output file (lines 220, 234). -/
inductive StartupEffect where
  | load_tokenizer : StartupEffect
  | load_model : StartupEffect
  | open_prompt_file : StartupEffect
  | open_output_file : StartupEffect
deriving DecidableEq

/-- The message of the `KeyError` raised for an unsupported model type
(run_gen.py line 206). -/
def keyErrorMsg : List Char :=
  "the model you specified is not supported. You are welcome to add it and open a PR :)".data

/-- `main` as a sequence of effects (run_gen.py lines 199-290): the
`MODEL_CLASSES` lookup of the lowercased model type happens before
`from_pretrained` is called and before `file_gen` opens any file; on a
lookup miss the `KeyError` is re-raised at once. Returns the effects
performed and the error raised, if any. -/
def main_startup (model_type : List Char) (no_file : Bool) :
    List StartupEffect × Option (List Char) :=
  if MODEL_CLASSES_keys.contains (model_type.map Char.toLower) then
    ([StartupEffect.load_tokenizer, StartupEffect.load_model] ++
      (if no_file then []
       else [StartupEffect.open_prompt_file, StartupEffect.open_output_file]),
     none)
  else ([], some keyErrorMsg)

/-! ### Concrete collaborators used for witnesses and counterexamples:
a per-character codec and an echoing model. -/

def enc0 (s : List Char) : List Nat := s.map Char.toNat

def dec0 (l : List Nat) : List Char := l.map Char.ofNat

def gen0 (t : List (List Nat)) : List (List Nat) := t

/-! ## Theorems -/

/-! ### Fuel adequacy and equations for `replaceAll` -/

theorem replaceAllF_congr (pat repl : List Char) (f₁ : Nat) :
    ∀ (f₂ : Nat) (s : List Char), s.length ≤ f₁ → s.length ≤ f₂ →
      replaceAllF pat repl f₁ s = replaceAllF pat repl f₂ s := by
  induction f₁ with
  | zero =>
    intro f₂ s h1 _
    have hs : s = [] := by cases s <;> simp_all
    subst hs
    simp [replaceAllF]
  | succ f ih =>
    intro f₂ s h1 h2
    cases s with
    | nil => simp [replaceAllF]
    | cons c rest =>
      cases f₂ with
      | zero => simp at h2
      | succ f₂' =>
        simp only [replaceAllF]
        by_cases hc : pat.isPrefixOf (c :: rest) ∧ pat ≠ []
        · rw [if_pos hc, if_pos hc]
          have hp : pat.length ≠ 0 := fun h0 => hc.2 (List.length_eq_zero.mp h0)
          have hd : ((c :: rest).drop pat.length).length ≤ f ∧
              ((c :: rest).drop pat.length).length ≤ f₂' := by
            simp only [List.length_drop, List.length_cons]
            simp only [List.length_cons] at h1 h2
            omega
          rw [ih _ _ hd.1 hd.2]
        · rw [if_neg hc, if_neg hc]
          have hr : rest.length ≤ f ∧ rest.length ≤ f₂' := by
            simp only [List.length_cons] at h1 h2
            omega
          rw [ih _ _ hr.1 hr.2]

theorem replaceAll_nil (pat repl : List Char) : replaceAll pat repl [] = [] := by
  simp [replaceAll, replaceAllF]

theorem replaceAll_cons (pat repl : List Char) (c : Char) (rest : List Char) :
    replaceAll pat repl (c :: rest) =
      if pat.isPrefixOf (c :: rest) ∧ pat ≠ [] then
        repl ++ replaceAll pat repl ((c :: rest).drop pat.length)
      else c :: replaceAll pat repl rest := by
  unfold replaceAll
  simp only [List.length_cons, replaceAllF]
  by_cases hc : pat.isPrefixOf (c :: rest) ∧ pat ≠ []
  · rw [if_pos hc, if_pos hc]
    have hp : pat.length ≠ 0 := fun h0 => hc.2 (List.length_eq_zero.mp h0)
    rw [replaceAllF_congr pat repl rest.length ((c :: rest).drop pat.length).length
      ((c :: rest).drop pat.length)]
    · simp only [List.length_drop, List.length_cons]
      omega
    · exact Nat.le_refl _
  · rw [if_neg hc, if_neg hc]

/-- Replacing a pattern that does not occur is the identity. -/
theorem replaceAll_of_not_occurs (pat repl : List Char) :
    ∀ (s : List Char), occurs pat s = false → replaceAll pat repl s = s := by
  intro s
  induction s with
  | nil => intro _; exact replaceAll_nil pat repl
  | cons c rest ih =>
    intro h
    simp only [occurs, Bool.or_eq_false_iff] at h
    rw [replaceAll_cons, if_neg]
    · rw [ih h.2]
    · intro hc
      rw [h.1] at hc
      exact Bool.false_ne_true hc.1

/-- Replacing one character by another is a pointwise map. -/
theorem replaceAll_single (a b : Char) (t : List Char) :
    replaceAll [a] [b] t = t.map (fun c => if c = a then b else c) := by
  induction t with
  | nil => simp [replaceAll_nil]
  | cons c rest ih =>
    rw [replaceAll_cons]
    by_cases hca : c = a
    · subst hca
      rw [if_pos ⟨by simp [List.isPrefixOf], by simp⟩]
      simp [ih]
    · rw [if_neg]
      · simp [ih, hca]
      · intro hc
        have hp := hc.1
        simp only [List.isPrefixOf, Bool.and_eq_true, beq_iff_eq] at hp
        exact hca hp.1.symm

/-- After replacing newlines by spaces, no newline occurs. -/
theorem occurs_newline_replace_false (t : List Char) :
    occurs ['\n'] (replaceAll ['\n'] [' '] t) = false := by
  rw [replaceAll_single]
  induction t with
  | nil => simp [occurs]
  | cons c rest ih =>
    simp only [List.map_cons, occurs, Bool.or_eq_false_iff]
    refine ⟨?_, ih⟩
    have hx : ('\n' == (if c = '\n' then ' ' else c)) = false := by
      by_cases hc : c = '\n'
      · rw [if_pos hc]; decide
      · rw [if_neg hc]
        exact beq_eq_false_iff_ne.mpr (fun h => hc h.symm)
    simp [List.isPrefixOf, hx]

/-- Claim C8, counterexample: removing a padding-marker occurrence can
create a fresh one, so a second application of the shared
post-processing can strip further. -/
theorem prompt_postprocess_not_idempotent_cex :
    prompt_postprocess (prompt_postprocess "<pa<pad>d>".data) ≠
      prompt_postprocess "<pa<pad>d>".data := by
  decide

/-- Claim C8, amended: the shared post-processing is idempotent on every
string whose once-processed form contains no padding marker; it is not
idempotent in general, because removing a marker occurrence can splice a
new one together. -/
theorem prompt_postprocess_idempotent_when_no_marker (s : List Char)
    (h : occurs "<pad>".data (prompt_postprocess s) = false) :
    prompt_postprocess (prompt_postprocess s) = prompt_postprocess s := by
  have h1 : replaceAll "<pad>".data [] (prompt_postprocess s) = prompt_postprocess s :=
    replaceAll_of_not_occurs _ _ _ h
  have h2 : occurs ['\n'] (prompt_postprocess s) = false := by
    unfold prompt_postprocess
    exact occurs_newline_replace_false _
  show replaceAll ['\n'] [' '] (replaceAll "<pad>".data [] (prompt_postprocess s)) =
    prompt_postprocess s
  rw [h1]
  exact replaceAll_of_not_occurs _ _ _ h2

/-- Witness for `prompt_postprocess_idempotent_when_no_marker`. -/
theorem prompt_postprocess_idempotent_when_no_marker_witness :
    prompt_postprocess (prompt_postprocess "a\nb".data) =
      prompt_postprocess "a\nb".data :=
  prompt_postprocess_idempotent_when_no_marker "a\nb".data (by decide)

/-! ### The length resolver: claims C1 and C4 -/

/-- Claim C1: the length resolver returns model_capacity when
requested < 0 and model_capacity > 0; else model_capacity when
0 < model_capacity < requested; else the safety bound 10000 when
requested < 0 and model_capacity <= 0; otherwise requested unchanged,
with the cases applied in exactly this order, for all integer inputs. -/
theorem adjust_length_to_model_matches_spec (r c : Int) :
    adjust_length_to_model r c = resolve_length_spec r c := by
  unfold adjust_length_to_model resolve_length_spec MAX_LENGTH
  split_ifs <;> omega

/-- Claim C4, counterexample: with requested = 20000 and
model_capacity = 0 (no positive maximum) the resolver returns 20000,
which exceeds the safety bound 10000; and with requested = 0 and
model_capacity = 1024 it returns 0, which is not positive. -/
theorem adjust_length_violates_invariant_cex :
    ¬ (adjust_length_to_model 20000 0 ≤ 10000) ∧
    ¬ (0 < adjust_length_to_model 0 1024) := by
  constructor <;> decide

/-- Claim C4, amended: when the model capacity is positive the resolved
length is at most the capacity, and is positive whenever the request is
nonzero; when the capacity is not positive, a negative request resolves
to the safety bound 10000 while a nonnegative request is returned
unchanged (so it may be 0 or exceed 10000). -/
theorem adjust_length_bounds (r c : Int) :
    (0 < c → adjust_length_to_model r c ≤ c) ∧
    (0 < c → r ≠ 0 → 0 < adjust_length_to_model r c) ∧
    (c ≤ 0 → r < 0 → adjust_length_to_model r c = 10000) ∧
    (c ≤ 0 → 0 ≤ r → adjust_length_to_model r c = r) := by
  refine ⟨fun h1 => ?_, fun h1 h2 => ?_, fun h1 h2 => ?_, fun h1 h2 => ?_⟩ <;>
    (unfold adjust_length_to_model MAX_LENGTH; split_ifs <;> omega)

/-- Witness for `adjust_length_bounds` at concrete inputs. -/
theorem adjust_length_bounds_witness :
    adjust_length_to_model 5 3 ≤ 3 ∧
    0 < adjust_length_to_model 5 3 ∧
    adjust_length_to_model (-1) 0 = 10000 ∧
    adjust_length_to_model 7 0 = 7 :=
  ⟨(adjust_length_bounds 5 3).1 (by decide),
   (adjust_length_bounds 5 3).2.1 (by decide) (by decide),
   (adjust_length_bounds (-1) 0).2.2.1 (by decide) (by decide),
   (adjust_length_bounds 7 0).2.2.2 (by decide) (by decide)⟩

/-! ### Prompt encoding: claims C2 and C3 -/

/-- Helper: the batch-dimension slice leaves the single-row tensor
intact, so the row sent to the model is the encoding of the full prompt
text with the continuation-begin marker appended. -/
theorem file_gen_input_ids_eq (enc : List Char → List Nat) (p : List Char) :
    file_gen_input_ids enc p = [enc (p ++ "<c-begin>".data)] := by
  have h : pyStrip " <c-begin> ".data = "<c-begin>".data := by decide
  simp [file_gen_input_ids, encodeTensor, h]

/-- Claim C2, evaluated at the failing input: for a 150-character title
the tensor row passed to the generation routine still holds all 159
token ids; the batch-dimension slice truncates no tokens. -/
theorem file_gen_input_ids_no_truncation :
    ((file_gen_input_ids enc0 (List.replicate 150 'a')).getD 0 []).length = 159 ∧
    ¬ ((file_gen_input_ids enc0 (List.replicate 150 'a')).getD 0 []).length ≤ 100 := by
  constructor <;> decide

/-- Claim C3, counterexample: with the per-character codec and prompt
"Hello world", the tensor the batch driver sends to the model is not the
encoding of the default padding passage prepended to the prompt. -/
theorem file_gen_input_ids_ne_padding_encoding :
    file_gen_input_ids enc0 "Hello world".data ≠
      [enc0 (PADDING_TEXT ++ "Hello world".data)] := by
  decide

/-- Claim C3, amended: with no padding_text override, the
padding-dependent preprocessors return the fixed default padding passage
prepended to the prompt text, but neither driver invokes any
preprocessing function: the encoded prefix the batch driver sends to the
model is the encoding of the prompt text with the continuation-begin
marker appended, without the padding passage. -/
theorem padding_preprocessors_unused_by_file_gen
    (enc : List Char → List Nat) (p : List Char) :
    prepare_xlnet_input [] p = PADDING_TEXT ++ p ∧
    prepare_transfoxl_input [] p = PADDING_TEXT ++ p ∧
    file_gen_input_ids enc p = [enc (p ++ "<c-begin>".data)] :=
  ⟨by simp [prepare_xlnet_input], by simp [prepare_transfoxl_input],
    file_gen_input_ids_eq enc p⟩

/-! ### Batch output shape: claim C6 -/

/-- Helper: a left fold that appends one element per item is the initial
list followed by the mapped items. -/
theorem foldl_emit {α β : Type} (g : α → β) (rows : List α) (init : List β) :
    rows.foldl (fun acc r => acc ++ [g r]) init = init ++ rows.map g := by
  induction rows generalizing init with
  | nil => simp
  | cons r rs ih => simp [List.foldl_cons, ih, List.append_assoc]

/-- Helper: `getD` through `map`, below the length. -/
theorem getD_map_of_lt {α β : Type} (f : α → β) (d : α) (d' : β) :
    (l : List α) → (i : Nat) → i < l.length → (l.map f).getD i d' = f (l.getD i d)
  | _ :: _, 0, _ => rfl
  | _ :: t, i+1, h => by
    simp only [List.map_cons, List.getD_cons_succ]
    exact getD_map_of_lt f d d' t i (by simpa using h)

/-- Claim C6: one `file_gen` run writes exactly one fixed header line
first and then exactly one record per input row, in input order. -/
theorem file_gen_writes_header_and_rows (enc : List Char → List Nat)
    (dec : List Nat → List Char) (generate : List (List Nat) → List (List Nat))
    (st : Option (List Char)) (rows : List (List Char × List Char)) :
    (file_gen_writes enc dec generate st rows).length = rows.length + 1 ∧
    (file_gen_writes enc dec generate st rows).getD 0 [] = header_line ∧
    ∀ i, i < rows.length →
      (file_gen_writes enc dec generate st rows).getD (i + 1) [] =
        format_row (file_gen_row enc dec generate st
          (rows.getD i ([], [])).1 (rows.getD i ([], [])).2) := by
  have he : file_gen_writes enc dec generate st rows =
      header_line ::
        rows.map (fun row => format_row (file_gen_row enc dec generate st row.1 row.2)) := by
    simpa using foldl_emit
      (fun row => format_row (file_gen_row enc dec generate st row.1 row.2)) rows [header_line]
  refine ⟨by simp [he], by simp [he], fun i hi => ?_⟩
  rw [he, List.getD_cons_succ, getD_map_of_lt _ ([], []) _ rows i hi]

/-- Witness for `file_gen_writes_header_and_rows` on a one-row table. -/
theorem file_gen_writes_header_and_rows_witness :
    (file_gen_writes enc0 dec0 gen0 none [("t".data, "c".data)]).getD 1 [] =
      format_row (file_gen_row enc0 dec0 gen0 none "t".data "c".data) := by
  have h := (file_gen_writes_header_and_rows enc0 dec0 gen0 none
    [("t".data, "c".data)]).2.2 0 (by decide)
  simpa using h

/-! ### Startup: claim C7 -/

/-- Claim C7: for every model-type string whose lowercasing is not among
the supported keys, startup raises the configuration error having
performed no model load, no codec load, and no file open. -/
theorem main_startup_unknown_model_type_fails_early
    (model_type : List Char) (no_file : Bool)
    (h : MODEL_CLASSES_keys.contains (model_type.map Char.toLower) = false) :
    main_startup model_type no_file = ([], some keyErrorMsg) := by
  have h2 : ¬ (MODEL_CLASSES_keys.contains (model_type.map Char.toLower) = true) := by
    intro hc
    rw [h] at hc
    exact Bool.false_ne_true hc
  unfold main_startup
  rw [if_neg h2]

/-- Witness for `main_startup_unknown_model_type_fails_early` at the
unsupported selector "bert". -/
theorem main_startup_unknown_model_type_fails_early_witness :
    main_startup "bert".data false = ([], some keyErrorMsg) :=
  main_startup_unknown_model_type_fails_early "bert".data false (by decide)

/-! ### The prompt field retains the marker: claim C5 -/

theorem isPrefixOf_self : (l : List Char) → l.isPrefixOf l = true
  | [] => rfl
  | c :: t => by simp [List.isPrefixOf, isPrefixOf_self t]

/-- `occurs` finds a pattern standing at the end of the text. -/
theorem occurs_append_self (pat : List Char) (hne : pat ≠ []) :
    ∀ (t : List Char), occurs pat (t ++ pat) = true := by
  intro t
  induction t with
  | nil =>
    cases pat with
    | nil => exact absurd rfl hne
    | cons c r =>
      simp only [List.nil_append, occurs]
      rw [isPrefixOf_self]
      simp
  | cons c t ih =>
    show (pat.isPrefixOf (c :: (t ++ pat)) || occurs pat (t ++ pat)) = true
    rw [ih, Bool.or_true]

/-- Left whitespace-stripping of text ending in the continuation-begin
marker keeps the marker at the end. -/
theorem dropWhile_ws_append_marker :
    ∀ (l : List Char), ∃ t,
      (l ++ "<c-begin>".data).dropWhile Char.isWhitespace = t ++ "<c-begin>".data := by
  intro l
  induction l with
  | nil => exact ⟨[], by decide⟩
  | cons c l ih =>
    by_cases hc : c.isWhitespace
    · simpa [List.dropWhile_cons, hc] using ih
    · exact ⟨c :: l, by simp [List.dropWhile_cons, hc]⟩

/-- `pyStrip` of text ending in the marker only strips on the left,
because the marker ends in a non-whitespace character. -/
theorem pyStrip_append_marker (l : List Char) :
    pyStrip (l ++ "<c-begin>".data) =
      (l ++ "<c-begin>".data).dropWhile Char.isWhitespace := by
  obtain ⟨t, ht⟩ := dropWhile_ws_append_marker l
  unfold pyStrip
  rw [ht]
  have hrev : ("<c-begin>".data).reverse = '>' :: "nigeb-c<".data := by decide
  rw [List.reverse_append, hrev, List.cons_append, List.dropWhile_cons,
    if_neg (by decide), ← List.cons_append, ← hrev, ← List.reverse_append,
    List.reverse_reverse]

/-- The marker survives `pyStrip` of any text that ends in it. -/
theorem occurs_marker_pyStrip (l : List Char) :
    occurs "<c-begin>".data (pyStrip (l ++ "<c-begin>".data)) = true := by
  rw [pyStrip_append_marker]
  obtain ⟨t, ht⟩ := dropWhile_ws_append_marker l
  rw [ht]
  exact occurs_append_self _ (by decide) t

/-- Claim C5, counterexample: for the row with title "The sky" (and the
per-character codec, echoing model, no stop token) the `prompt` field
written to the output contains the continuation-begin marker. -/
theorem file_gen_prompt_field_contains_marker_cex :
    occurs "<c-begin>".data
      ((file_gen_row enc0 dec0 gen0 none "The sky".data "x".data).prompt) = true := by
  decide

/-- Claim C5, amended: the marker-stripping post-processing applies to
the `gen` field only; the `prompt` field is merely whitespace-stripped,
so whenever the codec round-trips on the marked title, the `prompt`
field written to the output contains the continuation-begin marker. -/
theorem file_gen_prompt_field_contains_marker
    (enc : List Char → List Nat) (dec : List Nat → List Char)
    (generate : List (List Nat) → List (List Nat)) (st : Option (List Char))
    (title content : List Char)
    (h : dec (enc (title ++ "<c-begin>".data)) = title ++ "<c-begin>".data) :
    occurs "<c-begin>".data
      ((file_gen_row enc dec generate st title content).prompt) = true := by
  have he : (file_gen_row enc dec generate st title content).prompt =
      pyStrip (dec ((file_gen_input_ids enc title).getD 0 [])) := rfl
  rw [he, file_gen_input_ids_eq]
  simp only [List.getD_cons_zero]
  rw [h]
  exact occurs_marker_pyStrip title

/-- Witness for `file_gen_prompt_field_contains_marker`. -/
theorem file_gen_prompt_field_contains_marker_witness :
    occurs "<c-begin>".data
      ((file_gen_row enc0 dec0 gen0 (some "zz".data) "Hi".data "c".data).prompt) = true :=
  file_gen_prompt_field_contains_marker enc0 dec0 gen0 (some "zz".data)
    "Hi".data "c".data (by decide)

/-! ### Stop-token truncation: claim C10 -/

theorem findIdx0_none_of_not_occurs (pat : List Char) :
    ∀ (s : List Char), occurs pat s = false → findIdx0 pat s = none := by
  intro s
  induction s with
  | nil =>
    intro h
    simp only [occurs] at h
    simp [findIdx0, h]
  | cons c rest ih =>
    intro h
    simp only [occurs, Bool.or_eq_false_iff] at h
    rw [findIdx0, if_neg, ih h.2]
    · rfl
    · intro hc
      rw [h.1] at hc
      exact Bool.false_ne_true hc

/-- A configured stop token that does not occur makes `find` return -1. -/
theorem pyFind_eq_neg_one (pat s : List Char) (h : occurs pat s = false) :
    pyFind pat s = -1 := by
  unfold pyFind
  rw [findIdx0_none_of_not_occurs pat s h]

theorem findIdx0_some_of_occurs (pat : List Char) :
    ∀ (s : List Char), occurs pat s = true →
      ∃ k, findIdx0 pat s = some k ∧ k ≤ s.length := by
  intro s
  induction s with
  | nil =>
    intro h
    simp only [occurs] at h
    exact ⟨0, by simp [findIdx0, h], Nat.le_refl 0⟩
  | cons c rest ih =>
    intro h
    by_cases hp : pat.isPrefixOf (c :: rest) = true
    · exact ⟨0, by simp [findIdx0, hp], by simp⟩
    · have h2 : occurs pat rest = true := by
        simp only [occurs, Bool.or_eq_true] at h
        cases h with
        | inl h1 => exact absurd h1 hp
        | inr h2 => exact h2
      obtain ⟨k, hk, hkle⟩ := ih h2
      refine ⟨k + 1, ?_, by simp only [List.length_cons]; omega⟩
      rw [findIdx0, if_neg hp, hk]
      rfl

theorem take_drop_comm :
    (l : List Char) → (a b : Nat) → (l.take a).drop b = (l.drop b).take (a - b)
  | [], _, _ => by simp
  | _ :: _, 0, _ => by simp
  | _ :: _, _+1, 0 => by simp
  | c :: t, a+1, b+1 => by
    simp only [List.take_succ_cons, List.drop_succ_cons, Nat.succ_sub_succ]
    exact take_drop_comm t a b

theorem take_pred_eq_dropLast :
    (l : List Char) → l.take (l.length - 1) = l.dropLast
  | [] => rfl
  | [_] => rfl
  | a :: b :: t => by
    have ih := take_pred_eq_dropLast (b :: t)
    have hlen : (a :: b :: t).length - 1 = t.length + 1 := by simp
    rw [hlen, List.take_succ_cons]
    have h2 : (b :: t).length - 1 = t.length := by simp
    rw [h2] at ih
    rw [ih, List.dropLast_cons₂]

/-- Python `s[: -1]` drops exactly the final character. -/
theorem pySlice_none_neg_one (s : List Char) :
    pySlice s none (some (-1)) = s.dropLast := by
  simp only [pySlice]
  rw [if_pos (by decide : (-1 : Int) < 0)]
  have hi_eq : (min (s.length : Int) (max 0 (-1 + (s.length : Int)))).toNat =
      s.length - 1 := by omega
  rw [hi_eq, List.drop_zero]
  exact take_pred_eq_dropLast s

/-- Python `s[k : -1]` for `0 ≤ k ≤ len(s)`. -/
theorem pySlice_nat_neg_one (s : List Char) (k : Nat) (hk : k ≤ s.length) :
    pySlice s (some (k : Int)) (some (-1)) = (s.drop k).dropLast := by
  simp only [pySlice]
  rw [if_neg (by omega : ¬ ((k : Int) < 0)), if_pos (by decide : (-1 : Int) < 0)]
  have hlo : (min (s.length : Int) (k : Int)).toNat = k := by omega
  have hhi : (min (s.length : Int) (max 0 (-1 + (s.length : Int)))).toNat =
      s.length - 1 := by omega
  rw [hlo, hhi, take_drop_comm]
  have h1 : s.length - 1 - k = (s.drop k).length - 1 := by
    rw [List.length_drop]
    omega
  rw [h1]
  exact take_pred_eq_dropLast (s.drop k)

/-- Claim C10, counterexample: in the batch driver the truncated text is
not the whole decoded text minus its final character, because the slice
also starts at the continuation-begin marker. -/
theorem file_gen_trunc_not_dropLast_cex :
    file_gen_trunc (some "zz".data) "X<c-begin>abc".data ≠
      "X<c-begin>abc".data.dropLast := by
  decide

/-- Claim C10, amended: when a stop token is configured but absent from
the decoded text, the substring search yields -1 and that -1 end index
drops the final character: the interactive driver emits the decoded text
with exactly its final character removed, and the batch driver emits the
substring starting at the continuation-begin marker with its final
character removed (not the whole decoded text). -/
theorem stop_token_missing_drops_last_char (st text : List Char)
    (h : occurs st text = false) :
    pyFind st text = -1 ∧
    prompt_gen_trunc (some st) text = text.dropLast ∧
    (occurs "<c-begin>".data text = true →
      file_gen_trunc (some st) text =
        (text.drop (pyFind "<c-begin>".data text).toNat).dropLast) := by
  have hf : pyFind st text = -1 := pyFind_eq_neg_one st text h
  refine ⟨hf, ?_, ?_⟩
  · show pySlice text none (some (pyFind st text)) = text.dropLast
    rw [hf]
    exact pySlice_none_neg_one text
  · intro hcb
    obtain ⟨k, hk, hkle⟩ := findIdx0_some_of_occurs "<c-begin>".data text hcb
    have hfind : pyFind "<c-begin>".data text = (k : Int) := by
      unfold pyFind
      rw [hk]
    show pySlice text (some (pyFind "<c-begin>".data text))
        (some (pyFind st text)) = _
    rw [hf, hfind]
    have htn : ((k : Int)).toNat = k := by omega
    rw [htn]
    exact pySlice_nat_neg_one text k hkle

/-- Witness for `stop_token_missing_drops_last_char`. -/
theorem stop_token_missing_drops_last_char_witness :
    prompt_gen_trunc (some "zz".data) "q<c-begin>rs".data =
      "q<c-begin>rs".data.dropLast :=
  (stop_token_missing_drops_last_char "zz".data "q<c-begin>rs".data (by decide)).2.1
